import Mathlib

/-!
Shallow embedding of the BoardgameGeek calibre metadata-source plugin.

This file embeds `bggeek_source.py` (module `calibre_boardgamegeek_plugin`).
The plugin's collaborators (the HTTP transport, the BeautifulSoup parse tree,
calibre's `Metadata` container and `Source` base-class helpers) are external
libraries; they are modelled at their observable interface, with the modelling
assumptions recorded in the doc comment of each modelled definition.

Conventions:
* A parsed response tree is a list of `Element`s in document order
  (`soup.find` / `soup.find_all` search the whole tree in document order,
  so a flat list suffices for the queries the plugin performs).
* Python exceptions are modelled with `Except PyErr`; `PyErr` distinguishes
  `KeyError` (missing attribute subscript), `TypeError` (subscripting `None`),
  `ValueError` (failed `int()` / out-of-range `datetime`), and a transport
  failure raised by `browser.open_novisit`.
* Truthiness: a bs4 `Tag` is always truthy (`Tag.__bool__` returns `True`),
  so `if not tag:` on the result of `find` tests exactly for `None`;
  a Python string is falsy exactly when it is empty.
-/

namespace BGGeek

/-- A parsed element of an API response: tag name, attributes, and child text
nodes (the only contents the plugin reads). Models a bs4 `Tag`. -/
structure Element where
  name : String
  attrs : List (String × String)
  contents : List String
deriving Repr, DecidableEq

/-- A parsed response document: its elements, flattened in document order.
Models the `BeautifulSoup` object the plugin queries with `find`/`find_all`. -/
abbrev Soup := List Element

/-- Python exceptions the plugin's code can raise (or receive from the
transport): `KeyError` from `tag["k"]`, `TypeError` from `None["k"]`,
`ValueError` from `int()` / `datetime()`, and a remote-fetch failure from
`browser.open_novisit`. -/
inductive PyErr where
  | keyError : String → PyErr
  | typeError : String → PyErr
  | valueError : String → PyErr
  | fetchError : String → PyErr
deriving Repr, DecidableEq

/-- Attribute lookup `tag.attrs.get(k)`: the value of attribute `k`, if any. -/
def Element.attr (e : Element) (k : String) : Option String :=
  (e.attrs.find? (fun p => p.1 == k)).map Prod.snd

/-- Subscription `tag[k]` on a bs4 `Tag`: raises `KeyError` when the
attribute is absent. -/
def Element.getItem (e : Element) (k : String) : Except PyErr String :=
  match e.attr k with
  | some v => .ok v
  | none => .error (.keyError k)

/-- Whether an element carries every required attribute with the required
value (the `attrs={...}` filter of `find`/`find_all`). -/
def attrsMatch (e : Element) (req : List (String × String)) : Bool :=
  req.all (fun p => e.attr p.1 == some p.2)

/-- Embeds `soup.find_all(nm, attrs=req)`: every element with tag name `nm` matching
all required attributes, in document order. -/
def findAll (soup : Soup) (nm : String) (req : List (String × String)) : List Element :=
  soup.filter (fun e => e.name == nm && attrsMatch e req)

/-- Embeds `soup.find(nm, attrs=req)`: the first matching element, or `None`. -/
def find (soup : Soup) (nm : String) (req : List (String × String)) : Option Element :=
  (findAll soup nm req).head?

/-- The value of a decimal digit string (no sign), most significant first. -/
def digitsToNat (cs : List Char) : Nat :=
  cs.foldl (fun n c => 10 * n + (c.toNat - 48)) 0

/-- Models Python `int(s)` on the string forms the API can produce: an
optional sign followed by one or more decimal digits parses to the integer;
anything else raises `ValueError`. (Python additionally strips whitespace and
allows `_` separators; those forms never arrive from the attribute values the
plugin parses and are modelled as errors.) -/
def pyInt (s : String) : Except PyErr Int :=
  match s.toList with
  | [] => .error (.valueError s)
  | '-' :: rest =>
      if !rest.isEmpty && rest.all Char.isDigit then .ok (-(digitsToNat rest : Int))
      else .error (.valueError s)
  | '+' :: rest =>
      if !rest.isEmpty && rest.all Char.isDigit then .ok ((digitsToNat rest : Int))
      else .error (.valueError s)
  | cs =>
      if cs.all Char.isDigit then .ok ((digitsToNat cs : Int))
      else .error (.valueError s)

/-- A `datetime.datetime` value at the granularity the plugin uses. -/
structure PyDatetime where
  year : Int
  month : Int
  day : Int
deriving Repr, DecidableEq

/-- Models the `datetime(year, month, day)` constructor: Python raises
`ValueError` when the year is outside `1..9999`. (Month and day are always
the literal `1` at the plugin's single call site.) -/
def datetime (y m d : Int) : Except PyErr PyDatetime :=
  if 1 ≤ y ∧ y ≤ 9999 then .ok ⟨y, m, d⟩ else .error (.valueError "year is out of range")

/-- Embeds `_get_pub_date`: find the `yearpublished` element; absent element means
no date; parse its `value` attribute with `int` (raising on a malformed
value); a year `≤ 0` means no date; otherwise January 1 of that year. -/
def _get_pub_date (soup : Soup) : Except PyErr (Option PyDatetime) :=
  match find soup "yearpublished" [] with
  | none => .ok none
  | some tag =>
    match tag.getItem "value" with
    | .error e => .error e
    | .ok v =>
      match pyInt v with
      | .error e => .error e
      | .ok year =>
        if year ≤ 0 then .ok none
        else
          match datetime year 1 1 with
          | .error e => .error e
          | .ok d => .ok (some d)

/-- Embeds `_get_publisher`: the `value` of the first `link` element of type
`rpgpublisher`, or absent. -/
def _get_publisher (soup : Soup) : Except PyErr (Option String) :=
  match find soup "link" [("type", "rpgpublisher")] with
  | none => .ok none
  | some tag =>
    match tag.getItem "value" with
    | .error e => .error e
    | .ok v => .ok (some v)

/-- The `re.search(r"(\d+)\D*$", s)` capture: Python's leftmost match of a
digit run followed only by non-digits up to the end of the string is the
last digit run of `s`; equivalently drop trailing non-digits, then take the
trailing digit run, failing when no digit remains. -/
def lastDigitRun (s : String) : Option Nat :=
  let rcs := s.toList.reverse.dropWhile (fun c => !c.isDigit)
  let ds := rcs.takeWhile Char.isDigit
  if ds.isEmpty then none else some (digitsToNat ds.reverse)

/-- Embeds `int(match.group(1)) if match else 0` applied to the series-code regex:
the value of the trailing digit run of the code, or `0` when the regex does
not match. -/
def seriesIndex (code : String) : Int :=
  match lastDigitRun code with
  | some k => (k : Int)
  | none => 0

/-- Embeds `_get_series`: the series name is the `value` of the first `link`
element of type `rpgseries` (empty string when there is none); the series
index is parsed out of the `value` of the `seriescode` element when present
(`0` when absent or when its code has no trailing digit run). -/
def _get_series (soup : Soup) : Except PyErr (String × Int) :=
  let series0 : Except PyErr String :=
    match find soup "link" [("type", "rpgseries")] with
    | none => .ok ""
    | some tag => tag.getItem "value"
  match series0 with
  | .error e => .error e
  | .ok series =>
    match find soup "seriescode" [] with
    | none => .ok (series, 0)
    | some tag =>
      match tag.getItem "value" with
      | .error e => .error e
      | .ok code => .ok (series, seriesIndex code)

/-- Embeds `_get_comments`: the first content node of the `description` element, or
absent when the element is missing or empty. -/
def _get_comments (soup : Soup) : Option String :=
  match find soup "description" [] with
  | none => none
  | some tag => tag.contents.head?

/-- Embeds `_get_cover`: the `value` of the `image` element, or absent. -/
def _get_cover (soup : Soup) : Except PyErr (Option String) :=
  match find soup "image" [] with
  | none => .ok none
  | some tag =>
    match tag.getItem "value" with
    | .error e => .error e
    | .ok v => .ok (some v)

/-- The identifier namespace constant `_ID_TYPE`. -/
def _ID_TYPE : String := "bggeek"

/-- The base URL constant `_API_THING_URL`. -/
def _API_THING_URL : String := "https://boardgamegeek.com/xmlapi2/thing?id="

/-- The base URL constant `_API_SEARCH_URL`. -/
def _API_SEARCH_URL : String := "https://boardgamegeek.com/xmlapi/search?search="

/-- calibre's placeholder for a missing title or author list. -/
def UNKNOWN : String := "Unknown"

/-- The calibre `Metadata` record, restricted to the fields this plugin
reads or writes. -/
structure Metadata where
  title : String
  authors : List String
  identifiers : List (String × String)
  pubdate : Option PyDatetime
  publisher : Option String
  series : String
  series_index : Int
  comments : Option String
  source : String
  source_relevance : Int
deriving Repr, DecidableEq

/-- Models the calibre `Metadata(title, authors)` constructor: a falsy title
(empty string) leaves the placeholder default title, and a falsy author list
(empty) leaves the placeholder default author list; every other tracked field
starts at its null default and is assigned by the plugin afterwards. -/
def mkMetadata (title : String) (authors : List String) : Metadata :=
  { title := if title = "" then UNKNOWN else title
    authors := if authors = [] then [UNKNOWN] else authors
    identifiers := []
    pubdate := none
    publisher := none
    series := ""
    series_index := 0
    comments := none
    source := ""
    source_relevance := 0 }

/-- Models the host's `Source.clean_downloaded_metadata` helper, an external
calibre normalization step (title/author case fixing). It never blocks a
record from being emitted, never changes whether a field is empty, and never
touches the relevance; it is modelled as the identity. -/
def clean_downloaded_metadata (m : Metadata) : Metadata := m

/-- A remote request issued through `browser.open_novisit`: either a thing
(detail) query for one identifier or a search query string. -/
inductive Request where
  | thing : String → Request
  | search : String → Request
deriving Repr, DecidableEq

/-- The observable outcome of running (part of) an identify operation:
the remote requests issued in order, the records pushed to the shared result
queue in order, and the uncaught exception that aborted it, if any. -/
structure Outcome where
  requests : List Request
  pushed : List Metadata
  err : Option PyErr
deriving Repr, DecidableEq

/-- The remote environment: what fetching-and-parsing each thing query and
each search query produces. A `.error` models a remote-fetch (transport) or
response-parse failure raised inside `browser.open_novisit` /
`BeautifulSoup`. -/
structure Env where
  thingResponse : String → Except PyErr Soup
  searchResponse : String → Except PyErr Soup

/-- Left-to-right evaluation of `[x["value"] for x in links]`: the list of
`value` attributes, raising `KeyError` at the first element lacking one. -/
def allValues (es : List Element) : Except PyErr (List String) :=
  match es with
  | [] => .ok []
  | e :: rest =>
    match e.getItem "value" with
    | .error er => .error er
    | .ok v =>
      match allValues rest with
      | .error er => .error er
      | .ok vs => .ok (v :: vs)

/-- The body of `_get_metadata_from_thing_api` after the response `soup` is
obtained: skip silently unless an `item` of type `boardgameexpansion` is
present; then extract title (subscripting the possibly-`None` result of
`find("name", type="primary")`, a `TypeError` when absent), authors, and the
best-effort fields, build the `Metadata`, and return it for pushing. -/
def _thing_extract (soup : Soup) (bggeek_id : String) (relevance : Int) :
    Except PyErr (Option Metadata) :=
  match find soup "item" [("type", "boardgameexpansion")] with
  | none => .ok none
  | some _ =>
    match find soup "name" [("type", "primary")] with
    | none => .error (.typeError "NoneType is not subscriptable")
    | some nameTag =>
      match nameTag.getItem "value" with
      | .error e => .error e
      | .ok title =>
        match allValues (findAll soup "link" [("type", "rpgdesigner")]) with
        | .error e => .error e
        | .ok authors =>
          match _get_pub_date soup with
          | .error e => .error e
          | .ok pub_date =>
            match _get_publisher soup with
            | .error e => .error e
            | .ok publisher =>
              match _get_series soup with
              | .error e => .error e
              | .ok si =>
                let comments := _get_comments soup
                let md := mkMetadata title authors
                let md := { md with
                  identifiers := [(_ID_TYPE, bggeek_id)]
                  pubdate := pub_date
                  publisher := publisher
                  series := si.1
                  comments := comments
                  series_index := si.2
                  source := "BoardgameGeek"
                  source_relevance := relevance }
                .ok (some (clean_downloaded_metadata md))

/-- Embeds `_get_metadata_from_thing_api`: issue one thing query for `bggeek_id`;
on a transport/parse failure the exception propagates (nothing pushed); on a
successful response, extract and push at most one record; an extraction
exception also propagates with nothing pushed. -/
def _get_metadata_from_thing_api (env : Env) (bggeek_id : String) (relevance : Int) :
    Outcome :=
  match env.thingResponse bggeek_id with
  | .error e => ⟨[.thing bggeek_id], [], some e⟩
  | .ok soup =>
    match _thing_extract soup bggeek_id relevance with
    | .error e => ⟨[.thing bggeek_id], [], some e⟩
    | .ok none => ⟨[.thing bggeek_id], [], none⟩
    | .ok (some md) => ⟨[.thing bggeek_id], [md], none⟩

/-- Splitting a character list on a separator character, Python
`str.split(sep)` style: `"a//b"` splits to `["a", "", "b"]` and the empty
string splits to `[""]`. (`String.splitOn` itself is avoided because its
well-founded recursion does not reduce inside the kernel.) -/
def splitOnCharAux (c : Char) : List Char → List Char → List (List Char)
  | [], acc => [acc.reverse]
  | x :: xs, acc =>
    if x = c then acc.reverse :: splitOnCharAux c xs []
    else splitOnCharAux c xs (x :: acc)

/-- Python `s.split(c)` for a one-character separator. -/
def splitChar (c : Char) (s : String) : List String :=
  (splitOnCharAux c s.toList []).map String.mk

/-- Models the host's `Source.get_title_tokens` helper: a falsy title (absent
or empty) yields no tokens; otherwise the whitespace-separated words of the
title. (The host additionally strips punctuation and joiner words; that
refinement changes no claim proved here and is not modelled.) -/
def get_title_tokens (title : Option String) : List String :=
  match title with
  | none => []
  | some t => (splitChar ' ' t).filter (fun w => w ≠ "")

/-- The search query URL `_search_title` builds for a given title. -/
def searchQuery (title : Option String) : String :=
  _API_SEARCH_URL ++ "+".intercalate (get_title_tokens title)

/-- The `for i, item in enumerate(items):` loop of `_search_title`, starting
at index `i`: for each candidate, subscript its `id` attribute and run the
detail lookup with that index as relevance; an uncaught exception from any
iteration aborts the loop, leaving earlier pushes in the queue and the later
candidates unvisited. -/
def runLookups (env : Env) (items : List Element) (i : Int) : Outcome :=
  match items with
  | [] => ⟨[], [], none⟩
  | item :: rest =>
    match item.getItem "id" with
    | .error e => ⟨[], [], some e⟩
    | .ok id =>
      let o := _get_metadata_from_thing_api env id i
      match o.err with
      | some e => ⟨o.requests, o.pushed, some e⟩
      | none =>
        let r := runLookups env rest (i + 1)
        ⟨o.requests ++ r.requests, o.pushed ++ r.pushed, r.err⟩

/-- Embeds `_search_title`: build the search query from the title tokens, issue it,
and resolve every `item` of type `rpgitem` in the response through the detail
lookup, with its 0-based position as relevance. A search transport/parse
failure aborts with nothing pushed. -/
def _search_title (env : Env) (title : Option String) : Outcome :=
  let query := searchQuery title
  match env.searchResponse query with
  | .error e => ⟨[.search query], [], some e⟩
  | .ok soup =>
    let items := findAll soup "item" [("type", "rpgitem")]
    let r := runLookups env items 0
    ⟨.search query :: r.requests, r.pushed, r.err⟩

/-- Embeds `identifiers.get(k, None)` on the identifier map (modelled as an
association list with at most one binding per key, first binding wins). -/
def pyGet (identifiers : List (String × String)) (k : String) : Option String :=
  (identifiers.find? (fun p => p.1 == k)).map Prod.snd

/-- Python truthiness of `identifiers.get(...)`: `None` and the empty string
are falsy. -/
def truthy (o : Option String) : Bool :=
  match o with
  | none => false
  | some s => s ≠ ""

/-- Embeds `identify`: when the identifier map holds a truthy value under the
`bggeek` namespace, perform exactly one detail lookup for it with relevance
`0`; otherwise fall through to the title search. -/
def identify (env : Env) (title : Option String)
    (identifiers : List (String × String)) : Outcome :=
  let bggeek_id := pyGet identifiers _ID_TYPE
  if truthy bggeek_id then
    _get_metadata_from_thing_api env (bggeek_id.getD "") 0
  else
    _search_title env title

/-- Embeds `get_book_url`: the `(namespace, id, url)` triple when the identifier
map holds a truthy value under the `bggeek` namespace, else `None`. -/
def get_book_url (identifiers : List (String × String)) :
    Option (String × String × String) :=
  let bggeek_id := pyGet identifiers _ID_TYPE
  if truthy bggeek_id then
    some (_ID_TYPE, bggeek_id.getD "", "https://boardgamegeek.com/boardgame/" ++ bggeek_id.getD "")
  else
    none

/-- The parts of Python's `urlparse` result that `id_from_url` reads. -/
structure ParseResult where
  netloc : String
  path : String
deriving Repr, DecidableEq

/-- The text before and after the first occurrence of `"://"` in a character
list, or `none` when there is no such occurrence. -/
def breakOnScheme : List Char → Option (List Char × List Char)
  | [] => none
  | ':' :: '/' :: '/' :: rest => some ([], rest)
  | c :: rest => (breakOnScheme rest).map (fun p => (c :: p.1, p.2))

/-- Models `urllib.parse.urlparse` for URLs of the plain form
`scheme://host/path` (no query, fragment, port, or userinfo — the only
shapes the catalog produces): the text between the first `://` and the next
`/` is the netloc, the rest (with its leading `/`) the path; a string with
no `://` has an empty netloc and is all path. -/
def urlparse (url : String) : ParseResult :=
  match breakOnScheme url.toList with
  | none => ⟨"", url⟩
  | some (_, after) =>
    ⟨String.mk (after.takeWhile (fun c => c ≠ '/')),
     String.mk (after.dropWhile (fun c => c ≠ '/'))⟩

/-- Python `s.strip("/")`: drop leading and trailing slash characters. -/
def stripSlashes (s : String) : String :=
  String.mk (((s.toList.dropWhile (fun c => c == '/')).reverse.dropWhile
    (fun c => c == '/')).reverse)

/-- The body of `id_from_url` on an already-parsed URL: require the netloc
to be one of the three interchangeable catalog domains, split the
slash-stripped path on `/`, require at least two parts with the first equal
to `"boardgame"`, and return the namespace with the second part. -/
def id_from_url_parsed (parsed : ParseResult) : Option (String × String) :=
  if parsed.netloc ∉ ["rpggeek.com", "boardgamegeek.com", "videogamegeek.com"] then
    none
  else
    let path_parts := splitChar '/' (stripSlashes parsed.path)
    if path_parts.length < 2 ∨ path_parts.head? ≠ some "boardgame" then
      none
    else
      match path_parts with
      | _ :: p :: _ => some (_ID_TYPE, p)
      | _ => none

/-- Embeds `id_from_url`: parse the URL, then resolve it to `(namespace, id)`. -/
def id_from_url (url : String) : Option (String × String) :=
  id_from_url_parsed (urlparse url)

/-- The comparison key built by `identify_results_keygen`: it records only
the metadata's `source_relevance`. -/
structure _KeyGen where
  relevance : Int
deriving Repr, DecidableEq

/-- The `_KeyGen` constructor applied to a metadata record. -/
def _KeyGen.ofMetadata (m : Metadata) : _KeyGen := ⟨m.source_relevance⟩

/-- Embeds `_KeyGen.__eq__`. -/
def _KeyGen.eqk (a b : _KeyGen) : Bool := a.relevance == b.relevance

/-- Embeds `_KeyGen.__lt__`. -/
def _KeyGen.ltk (a b : _KeyGen) : Bool := a.relevance < b.relevance

/-- Embeds `_KeyGen.__le__`. -/
def _KeyGen.lek (a b : _KeyGen) : Bool := a.relevance ≤ b.relevance

/-- The key-extraction function `identify_results_keygen` returns (its
`title`/`authors`/`identifiers` arguments are never consulted by the key). -/
def keygen (m : Metadata) : _KeyGen := _KeyGen.ofMetadata m

/-- Whether every candidate in a list, looked up starting at relevance `i`,
survives without an uncaught exception (its `id` attribute is present and its
detail lookup raises nothing). -/
def prefixOk (env : Env) : List Element → Int → Bool
  | [], _ => true
  | x :: rest, i =>
    match x.getItem "id" with
    | .error _ => false
    | .ok id =>
      ((_get_metadata_from_thing_api env id i).err).isNone && prefixOk env rest (i + 1)

/-! Concrete fixtures used by counterexamples and witnesses -/

/-- A complete, well-formed detail response for a boardgame-expansion item. -/
def thingSoupGood : Soup :=
  [⟨"item", [("type", "boardgameexpansion"), ("id", "11")], []⟩,
   ⟨"name", [("type", "primary"), ("value", "Good Game")], []⟩,
   ⟨"link", [("type", "rpgdesigner"), ("value", "Alice")], []⟩,
   ⟨"yearpublished", [("value", "1999")], []⟩]

/-- A search response carrying two candidates of the expected kind, with
identifiers `"10"` and `"11"` in that order. -/
def searchSoupTwo : Soup :=
  [⟨"item", [("type", "rpgitem"), ("id", "10")], []⟩,
   ⟨"item", [("type", "rpgitem"), ("id", "11")], []⟩]

/-- An environment in which the detail fetch for candidate `"10"` fails with
a transport error while every other detail fetch succeeds, and the search
returns the two candidates `"10"`, `"11"`. -/
def envC1 : Env :=
  { thingResponse := fun id =>
      if id = "10" then .error (.fetchError "network") else .ok thingSoupGood
    searchResponse := fun _ => .ok searchSoupTwo }

/-- A detail response whose item is of the expected kind but whose primary
name has an empty `value`. -/
def soupEmptyTitle : Soup :=
  [⟨"item", [("type", "boardgameexpansion")], []⟩,
   ⟨"name", [("type", "primary"), ("value", "")], []⟩]

/-- A detail response whose item is of the expected kind but which has no
primary-name element at all. -/
def soupNoName : Soup :=
  [⟨"item", [("type", "boardgameexpansion")], []⟩]

/-- An environment whose detail responses have an empty primary-name value
(identifier `"7"`) or no primary-name element (any other identifier). -/
def envC2 : Env :=
  { thingResponse := fun id => if id = "7" then .ok soupEmptyTitle else .ok soupNoName
    searchResponse := fun _ => .ok [] }

/-- A detail response whose item carries the type tag the search step
selects by (`rpgitem`) — not the one the detail extraction expects — while
otherwise holding complete metadata. -/
def soupSearchKind : Soup :=
  [⟨"item", [("type", "rpgitem"), ("id", "9")], []⟩,
   ⟨"name", [("type", "primary"), ("value", "Some RPG")], []⟩,
   ⟨"link", [("type", "rpgdesigner"), ("value", "Bob")], []⟩]

/-- An environment serving `soupSearchKind` as every detail response. -/
def envC3 : Env :=
  { thingResponse := fun _ => .ok soupSearchKind
    searchResponse := fun _ => .ok [] }

/-- A search response carrying the single candidate `"11"`. -/
def searchSoupOne : Soup :=
  [⟨"item", [("type", "rpgitem"), ("id", "11")], []⟩]

/-- An environment in which every search (also the empty-query one) returns
one resolvable candidate and every detail lookup succeeds. -/
def envC4 : Env :=
  { thingResponse := fun _ => .ok thingSoupGood
    searchResponse := fun _ => .ok searchSoupOne }

/-- A detail response whose publication year is not parseable as an
integer. -/
def soupBadYear : Soup :=
  [⟨"yearpublished", [("value", "abc")], []⟩]

/-- A detail response exercising the series extractors: one series link and
a series code with a trailing digit run. -/
def soupSeries : Soup :=
  [⟨"link", [("type", "rpgseries"), ("value", "My Series")], []⟩,
   ⟨"seriescode", [("value", "ABC-042b")], []⟩]

/-- An environment in which every remote call fails (used where the claim
needs no remote traffic at all). -/
def envDown : Env :=
  { thingResponse := fun _ => .error (.fetchError "down")
    searchResponse := fun _ => .error (.fetchError "down") }

/-- A metadata record with the given relevance and fixed other fields. -/
def mdRank (r : Int) : Metadata :=
  { title := "T", authors := ["A"], identifiers := [], pubdate := none,
    publisher := none, series := "", series_index := 0, comments := none,
    source := "BoardgameGeek", source_relevance := r }

/-- Like `mdRank` but with a different title: used to show the comparison
key ignores every field except the relevance. -/
def mdRankOther (r : Int) : Metadata :=
  { mdRank r with title := "U", authors := ["B"] }

/-- The record the pipeline extracts from `thingSoupGood` for identifier
`"11"` at relevance `0`. -/
def mdGood : Metadata :=
  { title := "Good Game", authors := ["Alice"], identifiers := [("bggeek", "11")],
    pubdate := some ⟨1999, 1, 1⟩, publisher := none, series := "",
    series_index := 0, comments := none, source := "BoardgameGeek",
    source_relevance := 0 }

/-! Theorems -/

/-- Helper: a successful extraction determines the record's shape — the
primary-name element was found, its value and the designer values were read,
and the record carries them (with the host container's placeholders for
falsy values), together with the requested relevance and identifier. -/
lemma thing_extract_some (soup : Soup) (id : String) (r : Int) (md : Metadata)
    (h : _thing_extract soup id r = .ok (some md)) :
    ∃ t v vs, find soup "name" [("type", "primary")] = some t ∧
      t.getItem "value" = .ok v ∧
      allValues (findAll soup "link" [("type", "rpgdesigner")]) = .ok vs ∧
      md.title = (if v = "" then UNKNOWN else v) ∧
      md.authors = (if vs = [] then [UNKNOWN] else vs) ∧
      md.source_relevance = r ∧
      md.identifiers = [(_ID_TYPE, id)] := by
  unfold _thing_extract at h
  split at h
  · simp at h
  next it hItem =>
    split at h
    · simp at h
    next t hName =>
      split at h
      · simp at h
      next v hVal =>
        split at h
        · simp at h
        next vs hVals =>
          split at h
          · simp at h
          next pd hPd =>
            split at h
            · simp at h
            next pub hPub =>
              split at h
              · simp at h
              next si hSi =>
                simp only [Except.ok.injEq, Option.some.injEq] at h
                subst h
                exact ⟨t, v, vs, hName, hVal, hVals, by
                  simp [clean_downloaded_metadata, mkMetadata], by
                  simp [clean_downloaded_metadata, mkMetadata], by
                  simp [clean_downloaded_metadata, mkMetadata], by
                  simp [clean_downloaded_metadata, mkMetadata]⟩

/-- Helper: a detail lookup always issues exactly the one thing request for
its identifier, whatever the response. -/
lemma get_meta_requests (env : Env) (id : String) (r : Int) :
    (_get_metadata_from_thing_api env id r).requests = [Request.thing id] := by
  unfold _get_metadata_from_thing_api
  split
  · rfl
  · split <;> rfl

/-- Helper: a record in the detail lookup's push list is its only push, and
the lookup's response and extraction succeeded on it. -/
lemma get_meta_pushed_eq (env : Env) (id : String) (r : Int) (md : Metadata)
    (h : md ∈ (_get_metadata_from_thing_api env id r).pushed) :
    ∃ soup, env.thingResponse id = .ok soup ∧
      _thing_extract soup id r = .ok (some md) ∧
      (_get_metadata_from_thing_api env id r).pushed = [md] := by
  cases he : env.thingResponse id with
  | error e => simp [_get_metadata_from_thing_api, he] at h
  | ok soup =>
    cases ht : _thing_extract soup id r with
    | error e => simp [_get_metadata_from_thing_api, he, ht] at h
    | ok o =>
      cases o with
      | none => simp [_get_metadata_from_thing_api, he, ht] at h
      | some md2 =>
        simp [_get_metadata_from_thing_api, he, ht] at h
        subst h
        exact ⟨soup, rfl, ht, by simp [_get_metadata_from_thing_api, he, ht]⟩

/-- C8: URL-to-identifier parsing returns `(namespace, second path segment)`
exactly when the URL's host is one of the three known catalog domains and
its slash-stripped path splits into at least two segments with the first
equal to the literal `"boardgame"`; otherwise it returns no match, without
raising. Concretely, `https://boardgamegeek.com/boardgame/4098/item-name`
yields identifier `"4098"`, while host `example.com` and first path segment
`notboardgame` yield no match. -/
theorem c8_url_to_identifier :
    (∀ netloc path r,
      id_from_url_parsed ⟨netloc, path⟩ = some r ↔
        netloc ∈ ["rpggeek.com", "boardgamegeek.com", "videogamegeek.com"] ∧
        ∃ p1 rest, splitChar '/' (stripSlashes path) = "boardgame" :: p1 :: rest ∧
          r = (_ID_TYPE, p1)) ∧
    id_from_url "https://boardgamegeek.com/boardgame/4098/item-name" = some ("bggeek", "4098") ∧
    id_from_url "https://example.com/boardgame/4098/item-name" = none ∧
    id_from_url "https://boardgamegeek.com/notboardgame/4098" = none := by
  refine ⟨?_, by decide, by decide, by decide⟩
  intro netloc path r
  constructor
  · intro h
    simp only [id_from_url_parsed] at h
    split_ifs at h with h1 h2
    · push_neg at h2
      obtain ⟨hlen, hhead⟩ := h2
      refine ⟨h1, ?_⟩
      rcases hps : splitChar '/' (stripSlashes path) with _ | ⟨p0, _ | ⟨p1, rest⟩⟩
      · rw [hps] at hlen; simp at hlen
      · rw [hps] at hlen; simp at hlen
      · rw [hps] at h hhead
        simp only [List.head?_cons, Option.some.injEq] at hhead
        simp only [Option.some.injEq] at h
        exact ⟨p1, rest, by rw [hhead], h.symm⟩
  · rintro ⟨hmem, p1, rest, hsplit, hr⟩
    simp only [id_from_url_parsed]
    rw [if_neg (not_not.mpr hmem), if_neg]
    · rw [hsplit]
      simp [hr]
    · rw [hsplit]
      push_neg
      refine ⟨by simp only [List.length_cons]; omega, by simp⟩

/-- C9: the comparison key built by the result-ranking keygen records only
the numeric relevance rank and defines a total order on it: the key ignores
every other field, its strict order agrees with `<` on ranks (lower rank
orders ahead), equal ranks compare as equal, equality of keys is reflexive,
symmetric and transitive, the strict order is transitive and exclusive with
key equality, the three relations are total, and `≤` is the reflexive
closure of `<`. -/
theorem c9_keygen_total_order :
    (∀ m₁ m₂ : Metadata, m₁.source_relevance = m₂.source_relevance →
      keygen m₁ = keygen m₂) ∧
    (∀ m₁ m₂ : Metadata, (keygen m₁).ltk (keygen m₂) = true ↔
      m₁.source_relevance < m₂.source_relevance) ∧
    (∀ m₁ m₂ : Metadata, (keygen m₁).eqk (keygen m₂) = true ↔
      m₁.source_relevance = m₂.source_relevance) ∧
    (∀ a b : _KeyGen, a.ltk b = true ∨ a.eqk b = true ∨ b.ltk a = true) ∧
    (∀ a : _KeyGen, a.eqk a = true) ∧
    (∀ a b : _KeyGen, a.eqk b = true → b.eqk a = true) ∧
    (∀ a b c : _KeyGen, a.eqk b = true → b.eqk c = true → a.eqk c = true) ∧
    (∀ a b c : _KeyGen, a.ltk b = true → b.ltk c = true → a.ltk c = true) ∧
    (∀ a b : _KeyGen, ¬(a.ltk b = true ∧ a.eqk b = true)) ∧
    (∀ a b : _KeyGen, a.lek b = true ↔ (a.ltk b = true ∨ a.eqk b = true)) := by
  refine ⟨?_, ?_, ?_, ?_, ?_, ?_, ?_, ?_, ?_, ?_⟩
  · intro m₁ m₂ h
    simp [keygen, _KeyGen.ofMetadata, h]
  · intro m₁ m₂
    simp [keygen, _KeyGen.ofMetadata, _KeyGen.ltk]
  · intro m₁ m₂
    simp [keygen, _KeyGen.ofMetadata, _KeyGen.eqk]
  · intro a b
    simp [_KeyGen.ltk, _KeyGen.eqk]
    omega
  · intro a
    simp [_KeyGen.eqk]
  · intro a b h
    simp [_KeyGen.eqk] at h ⊢
    omega
  · intro a b c h₁ h₂
    simp [_KeyGen.eqk] at h₁ h₂ ⊢
    omega
  · intro a b c h₁ h₂
    simp [_KeyGen.ltk] at h₁ h₂ ⊢
    omega
  · intro a b h
    obtain ⟨h₁, h₂⟩ := h
    simp [_KeyGen.ltk] at h₁
    simp [_KeyGen.eqk] at h₂
    omega
  · intro a b
    simp [_KeyGen.ltk, _KeyGen.eqk, _KeyGen.lek]
    omega

/-- C9 witness: at ranks 2 and 5 the rank-2 key orders strictly ahead; two
keys built from records that agree on rank 7 but differ in every other field
are equal and compare as equal. -/
theorem c9_keygen_witness :
    (keygen (mdRank 2)).ltk (keygen (mdRank 5)) = true ∧
    keygen (mdRank 7) = keygen (mdRankOther 7) ∧
    (keygen (mdRank 7)).eqk (keygen (mdRankOther 7)) = true := by
  refine ⟨?_, ?_, ?_⟩
  · exact (c9_keygen_total_order.2.1 (mdRank 2) (mdRank 5)).mpr (by decide)
  · exact c9_keygen_total_order.1 (mdRank 7) (mdRankOther 7) (by decide)
  · exact (c9_keygen_total_order.2.2.1 (mdRank 7) (mdRankOther 7)).mpr (by decide)

/-- C10: an identifier map holding the plugin's namespace key with the empty
string is treated like a map without that key — presence is tested by
truthiness, not key membership: the book-URL builder returns no result and
`identify` takes the title-search branch, exactly as for a map lacking the
key. -/
theorem c10_empty_identifier_falsy (env : Env) (title : Option String)
    (rest : List (String × String)) (h : pyGet rest _ID_TYPE = none) :
    get_book_url ((_ID_TYPE, "") :: rest) = none ∧
    get_book_url rest = none ∧
    identify env title ((_ID_TYPE, "") :: rest) = _search_title env title ∧
    identify env title rest = _search_title env title ∧
    get_book_url ((_ID_TYPE, "") :: rest) = get_book_url rest ∧
    identify env title ((_ID_TYPE, "") :: rest) = identify env title rest := by
  have hc : pyGet ((_ID_TYPE, "") :: rest) _ID_TYPE = some "" := by
    simp [pyGet]
  refine ⟨?_, ?_, ?_, ?_, ?_, ?_⟩ <;>
    simp [get_book_url, identify, hc, h, truthy]

/-- C10 witness: the singleton map `{"bggeek": ""}` and the empty map. -/
theorem c10_empty_identifier_witness :
    get_book_url [(_ID_TYPE, "")] = none ∧
    identify envDown none [(_ID_TYPE, "")] = identify envDown none [] := by
  have h := c10_empty_identifier_falsy envDown none [] (by simp [pyGet])
  exact ⟨h.1, h.2.2.2.2.2⟩

/-- C2 counterexample: the claim "a record whose extracted title is empty or
absent is never emitted to the sink, without raising" fails both ways. On a
detail response whose primary-name `value` is the empty string, a record IS
pushed (the host container substitutes the placeholder title); and on a
response with no primary-name element at all, the lookup raises a
`TypeError` instead of a silent non-emission. -/
theorem c2_counterexample :
    (find soupEmptyTitle "name" [("type", "primary")]).map (fun t => t.attr "value") =
      some (some "") ∧
    (_get_metadata_from_thing_api envC2 "7" 0).pushed.length = 1 ∧
    (_get_metadata_from_thing_api envC2 "7" 0).pushed.map Metadata.title = [UNKNOWN] ∧
    (_get_metadata_from_thing_api envC2 "7" 0).err = none ∧
    (_get_metadata_from_thing_api envC2 "8" 0).pushed = [] ∧
    (_get_metadata_from_thing_api envC2 "8" 0).err =
      some (.typeError "NoneType is not subscriptable") := by
  refine ⟨?_, ?_, ?_, ?_, ?_, ?_⟩ <;> decide

/-- C2 (amended): every detail lookup pushes at most one record; a pushed
record's title is the primary-name `value` and its authors the designer-link
values, with the host container's `"Unknown"` placeholder substituted when
these are empty — so the pushed record's title and authors are always
non-empty, but a record with an empty extracted title is still emitted (with
the placeholder). When the item is of the expected kind but the primary-name
element is absent, the lookup raises a `TypeError` and pushes nothing. -/
theorem c2_emitted_record_shape :
    (∀ env id r,
      (_get_metadata_from_thing_api env id r).pushed = [] ∨
      ∃ md soup t v vs,
        (_get_metadata_from_thing_api env id r).pushed = [md] ∧
        env.thingResponse id = .ok soup ∧
        find soup "name" [("type", "primary")] = some t ∧
        t.getItem "value" = .ok v ∧
        allValues (findAll soup "link" [("type", "rpgdesigner")]) = .ok vs ∧
        md.title = (if v = "" then UNKNOWN else v) ∧
        md.authors = (if vs = [] then [UNKNOWN] else vs) ∧
        md.title ≠ "" ∧ md.authors ≠ []) ∧
    (∀ env id r soup it,
      env.thingResponse id = .ok soup →
      find soup "item" [("type", "boardgameexpansion")] = some it →
      find soup "name" [("type", "primary")] = none →
      (_get_metadata_from_thing_api env id r).pushed = [] ∧
      (_get_metadata_from_thing_api env id r).err =
        some (.typeError "NoneType is not subscriptable")) := by
  constructor
  · intro env id r
    rcases hp : (_get_metadata_from_thing_api env id r).pushed with _ | ⟨md, rest⟩
    · exact Or.inl rfl
    · right
      have hm : md ∈ (_get_metadata_from_thing_api env id r).pushed := by
        rw [hp]; exact List.mem_cons_self md rest
      obtain ⟨soup, he, ht, hone⟩ := get_meta_pushed_eq env id r md hm
      obtain ⟨t, v, vs, hName, hVal, hVals, hTitle, hAuth, -, -⟩ :=
        thing_extract_some soup id r md ht
      refine ⟨md, soup, t, v, vs, by rw [← hp]; exact hone, he, hName, hVal, hVals,
        hTitle, hAuth, ?_, ?_⟩
      · rw [hTitle]
        split
        · simp [UNKNOWN]
        · assumption
      · rw [hAuth]
        split
        · simp
        · assumption
  · intro env id r soup it he hItem hName
    constructor <;> simp [_get_metadata_from_thing_api, _thing_extract, he, hItem, hName]

/-- Helper: every record pushed by the candidate fan-out loop comes from the
detail lookup of some candidate at position `j` of the list, performed with
relevance `i + j`. -/
lemma runLookups_mem (env : Env) :
    ∀ (items : List Element) (i : Int) (md : Metadata),
      md ∈ (runLookups env items i).pushed →
      ∃ (j : Nat) (item : Element) (id : String),
        items[j]? = some item ∧ item.getItem "id" = .ok id ∧
        (_get_metadata_from_thing_api env id (i + j)).pushed = [md] := by
  intro items
  induction items with
  | nil =>
    intro i md h
    simp [runLookups] at h
  | cons item rest ih =>
    intro i md h
    unfold runLookups at h
    cases hid : item.getItem "id" with
    | error e =>
      rw [hid] at h
      simp at h
    | ok id =>
      rw [hid] at h
      simp only at h
      cases herr : (_get_metadata_from_thing_api env id i).err with
      | some e =>
        rw [herr] at h
        simp only at h
        obtain ⟨s2, -, -, hone⟩ := get_meta_pushed_eq env id i md h
        exact ⟨0, item, id, by simp, hid, by simpa using hone⟩
      | none =>
        rw [herr] at h
        simp only [List.mem_append] at h
        rcases h with h | h
        · obtain ⟨s2, -, -, hone⟩ := get_meta_pushed_eq env id i md h
          exact ⟨0, item, id, by simp, hid, by simpa using hone⟩
        · obtain ⟨j, item2, id2, hj, hid2, hpush⟩ := ih (i + 1) md h
          refine ⟨j + 1, item2, id2, by simpa using hj, hid2, ?_⟩
          rw [show (i + ((j + 1 : ℕ) : ℤ)) = (i + 1) + (j : ℤ) by push_cast; ring]
          exact hpush

/-- C2 witness: the amended claim applied to the concrete environment whose
detail response for identifier `"8"` has an item of the expected kind but no
primary-name element. -/
theorem c2_emitted_record_shape_witness :
    (_get_metadata_from_thing_api envC2 "8" 0).pushed = [] ∧
    (_get_metadata_from_thing_api envC2 "8" 0).err =
      some (.typeError "NoneType is not subscriptable") :=
  c2_emitted_record_shape.2 envC2 "8" 0 soupNoName
    ⟨"item", [("type", "boardgameexpansion")], []⟩
    rfl (by decide) (by decide)

/-- C7: when the identifier map carries a truthy value under the plugin's
namespace, `identify` is exactly one detail lookup for it at relevance `0`
and issues no search request (its request trace is the single thing
request); otherwise every record pushed comes from the detail lookup of a
candidate of the expected kind in the search response, performed and tagged
with that candidate's 0-based position among those candidates as its
relevance rank. -/
theorem c7_relevance_ranks :
    (∀ env title ids s,
      pyGet ids _ID_TYPE = some s → s ≠ "" →
      identify env title ids = _get_metadata_from_thing_api env s 0 ∧
      (identify env title ids).requests = [Request.thing s]) ∧
    (∀ env title ids soup md,
      truthy (pyGet ids _ID_TYPE) = false →
      env.searchResponse (searchQuery title) = .ok soup →
      md ∈ (identify env title ids).pushed →
      ∃ (j : Nat) (item : Element) (id : String),
        (findAll soup "item" [("type", "rpgitem")])[j]? = some item ∧
        item.getItem "id" = .ok id ∧
        (_get_metadata_from_thing_api env id (j : Int)).pushed = [md] ∧
        md.source_relevance = (j : Int)) := by
  constructor
  · intro env title ids s hs hne
    have heq : identify env title ids = _get_metadata_from_thing_api env s 0 := by
      simp [identify, hs, truthy, hne]
    exact ⟨heq, by rw [heq]; exact get_meta_requests env s 0⟩
  · intro env title ids soup md hfalse hresp hmem
    have heq : identify env title ids = _search_title env title := by
      simp [identify, hfalse]
    rw [heq] at hmem
    simp only [_search_title, hresp] at hmem
    obtain ⟨j, item, id, hj, hid, hpush⟩ :=
      runLookups_mem env (findAll soup "item" [("type", "rpgitem")]) 0 md hmem
    rw [show ((0 : ℤ) + (j : ℤ)) = (j : ℤ) by ring] at hpush
    have hm2 : md ∈ (_get_metadata_from_thing_api env id (j : Int)).pushed := by
      rw [hpush]; exact List.mem_singleton.mpr rfl
    obtain ⟨s2, -, ht2, -⟩ := get_meta_pushed_eq env id (j : Int) md hm2
    obtain ⟨t, v, vs, -, -, -, -, -, hrel, -⟩ := thing_extract_some s2 id (j : Int) md ht2
    exact ⟨j, item, id, hj, hid, hpush, hrel⟩

/-- C7 witness: a direct identifier lookup for `"4098"` is one detail
request at relevance `0` with no search; and in a search environment with
one candidate `"11"`, the emitted record `mdGood` carries rank `0`, the
candidate's position. -/
theorem c7_relevance_ranks_witness :
    (identify envC4 none [(_ID_TYPE, "4098")] =
      _get_metadata_from_thing_api envC4 "4098" 0 ∧
     (identify envC4 none [(_ID_TYPE, "4098")]).requests = [Request.thing "4098"]) ∧
    (∃ (j : Nat) (item : Element) (id : String),
      (findAll searchSoupOne "item" [("type", "rpgitem")])[j]? = some item ∧
      item.getItem "id" = .ok id ∧
      (_get_metadata_from_thing_api envC4 id (j : Int)).pushed = [mdGood] ∧
      mdGood.source_relevance = (j : Int)) :=
  ⟨c7_relevance_ranks.1 envC4 none [(_ID_TYPE, "4098")] "4098" (by decide) (by decide),
   c7_relevance_ranks.2 envC4 none [] searchSoupOne mdGood (by decide) rfl (by decide)⟩

/-- Helper: once a candidate's detail lookup raises, the fan-out loop
behaves as if the remaining siblings were absent — they are never looked up
— and the loop's outcome carries that error. -/
lemma runLookups_abort (env : Env) (pre : List Element) (x : Element)
    (rest : List Element) (i : Int) (id : String) (e : PyErr)
    (hpre : prefixOk env pre i = true)
    (hx : x.getItem "id" = .ok id)
    (he : (_get_metadata_from_thing_api env id (i + (pre.length : Int))).err = some e) :
    runLookups env (pre ++ x :: rest) i = runLookups env (pre ++ [x]) i ∧
    (runLookups env (pre ++ x :: rest) i).err = some e := by
  induction pre generalizing i with
  | nil =>
    have he' : (_get_metadata_from_thing_api env id i).err = some e := by
      simpa using he
    constructor
    · simp only [List.nil_append]
      unfold runLookups
      rw [hx]
      simp only [he']
    · simp only [List.nil_append]
      unfold runLookups
      rw [hx]
      simp only [he']
  | cons p ps ih =>
    unfold prefixOk at hpre
    cases hpid : p.getItem "id" with
    | error e2 =>
      rw [hpid] at hpre
      simp at hpre
    | ok pid =>
      rw [hpid] at hpre
      simp only [Bool.and_eq_true, Option.isNone_iff_eq_none] at hpre
      obtain ⟨hnone, hpre2⟩ := hpre
      have he' : (_get_metadata_from_thing_api env id
          ((i + 1) + (ps.length : Int))).err = some e := by
        rw [show ((i + 1) + (ps.length : Int)) =
            i + (((p :: ps).length : ℕ) : ℤ) by simp [List.length_cons]; ring]
        exact he
      obtain ⟨ih1, ih2⟩ := ih (i + 1) hpre2 he'
      constructor
      · simp only [List.cons_append]
        unfold runLookups
        rw [hpid]
        simp only [hnone, ih1]
      · simp only [List.cons_append]
        unfold runLookups
        rw [hpid]
        simp only [hnone]
        exact ih2

/-- C1 counterexample: in the concrete environment `envC1`, the search
yields the two sibling candidates `"10"` and `"11"`, the detail fetch of
`"10"` fails, and — contrary to the claim — the identify operation aborts
with that error: nothing is pushed and the sibling `"11"` is never looked
up. -/
theorem c1_counterexample :
    (findAll searchSoupTwo "item" [("type", "rpgitem")]).length = 2 ∧
    (identify envC1 none []).err = some (.fetchError "network") ∧
    (identify envC1 none []).pushed = [] ∧
    Request.thing "11" ∉ (identify envC1 none []).requests := by
  refine ⟨?_, ?_, ?_, ?_⟩ <;> decide

/-- C1 (amended): a remote-fetch or response-parse failure during one
candidate's detail lookup propagates as an uncaught exception and aborts
the identify operation: the failing candidate pushes nothing, the remaining
sibling candidates are never looked up (the outcome equals that of the
candidate list truncated after the failing candidate), and the search-branch
outcome carries the error. -/
theorem c1_failure_aborts_identify :
    (∀ (env : Env) (pre : List Element) (x : Element) (rest : List Element)
        (i : Int) (id : String) (e : PyErr),
      prefixOk env pre i = true →
      x.getItem "id" = .ok id →
      (_get_metadata_from_thing_api env id (i + (pre.length : Int))).err = some e →
      runLookups env (pre ++ x :: rest) i = runLookups env (pre ++ [x]) i ∧
      (runLookups env (pre ++ x :: rest) i).err = some e) ∧
    (∀ (env : Env) (title : Option String) (soup : Soup) (pre : List Element)
        (x : Element) (rest : List Element) (id : String) (e : PyErr),
      env.searchResponse (searchQuery title) = .ok soup →
      findAll soup "item" [("type", "rpgitem")] = pre ++ x :: rest →
      prefixOk env pre 0 = true →
      x.getItem "id" = .ok id →
      (_get_metadata_from_thing_api env id (pre.length : Int)).err = some e →
      (_search_title env title).err = some e ∧
      _search_title env title =
        ⟨Request.search (searchQuery title) ::
           (runLookups env (pre ++ [x]) 0).requests,
         (runLookups env (pre ++ [x]) 0).pushed,
         (runLookups env (pre ++ [x]) 0).err⟩) := by
  constructor
  · intro env pre x rest i id e hpre hx he
    exact runLookups_abort env pre x rest i id e hpre hx he
  · intro env title soup pre x rest id e hresp hfind hpre hx he
    have he0 : (_get_metadata_from_thing_api env id
        ((0 : Int) + (pre.length : Int))).err = some e := by
      simpa using he
    obtain ⟨h1, h2⟩ := runLookups_abort env pre x rest 0 id e hpre hx he0
    constructor
    · simp only [_search_title, hresp, hfind]
      exact h2
    · simp only [_search_title, hresp, hfind, h1]

/-- C1 witness: the amended claim applied to `envC1`, whose search returns
candidates `"10"` and `"11"` and whose detail fetch of `"10"` fails. -/
theorem c1_failure_aborts_identify_witness :
    (_search_title envC1 none).err = some (.fetchError "network") ∧
    _search_title envC1 none =
      ⟨Request.search (searchQuery none) ::
         (runLookups envC1 [⟨"item", [("type", "rpgitem"), ("id", "10")], []⟩] 0).requests,
       (runLookups envC1 [⟨"item", [("type", "rpgitem"), ("id", "10")], []⟩] 0).pushed,
       (runLookups envC1 [⟨"item", [("type", "rpgitem"), ("id", "10")], []⟩] 0).err⟩ := by
  have h := c1_failure_aborts_identify.2 envC1 none searchSoupTwo []
    ⟨"item", [("type", "rpgitem"), ("id", "10")], []⟩
    [⟨"item", [("type", "rpgitem"), ("id", "11")], []⟩]
    "10" (.fetchError "network") rfl (by decide) (by decide) rfl (by decide)
  simpa using h

/-- C3 counterexample: the detail extraction's expected kind is NOT the kind
the search step selects candidates by. `soupSearchKind` carries an item of
the search-selected kind `rpgitem` with complete metadata (primary name
present), yet the detail lookup silently skips it: nothing pushed, no
error. -/
theorem c3_counterexample :
    findAll soupSearchKind "item" [("type", "rpgitem")] ≠ [] ∧
    (find soupSearchKind "name" [("type", "primary")]).isSome = true ∧
    _get_metadata_from_thing_api envC3 "9" 0 = ⟨[Request.thing "9"], [], none⟩ := by
  refine ⟨?_, ?_, ?_⟩ <;> decide

/-- C3 (amended): extraction proceeds only for detail responses containing
an item whose type tag is `boardgameexpansion`; any other response — in
particular one whose item carries the kind `rpgitem` that the search step
selects candidates by, which is a different kind — yields no record as a
silent skip: no exception, nothing pushed, only the one thing request
issued. -/
theorem c3_type_gate :
    (∀ (env : Env) (id : String) (rel : Int) (soup : Soup),
      env.thingResponse id = .ok soup →
      find soup "item" [("type", "boardgameexpansion")] = none →
      _get_metadata_from_thing_api env id rel = ⟨[Request.thing id], [], none⟩) ∧
    (findAll soupSearchKind "item" [("type", "rpgitem")] ≠ [] ∧
     find soupSearchKind "item" [("type", "boardgameexpansion")] = none) := by
  refine ⟨?_, by decide, by decide⟩
  intro env id rel soup hresp hnone
  simp [_get_metadata_from_thing_api, _thing_extract, hresp, hnone]

/-- C3 witness: the amended claim applied to `envC3`, whose detail response
holds an item of the search-selected kind only. -/
theorem c3_type_gate_witness :
    _get_metadata_from_thing_api envC3 "9" 1 = ⟨[Request.thing "9"], [], none⟩ :=
  c3_type_gate.1 envC3 "9" 1 soupSearchKind rfl (by decide)

/-- C4 counterexample: with no identifier and no title, `identify` does not
return a negative result: in `envC4` it issues a search with the bare
search URL (empty query) and pushes a record resolved from that search's
response. -/
theorem c4_counterexample :
    (identify envC4 none []).requests =
      [Request.search _API_SEARCH_URL, Request.thing "11"] ∧
    (identify envC4 none []).pushed = [mdGood] ∧
    (identify envC4 none []).err = none := by
  refine ⟨?_, ?_, ?_⟩ <;> decide

/-- C4 (amended): when the identifier map holds no truthy value under the
plugin's namespace and the title is `None`, `identify` does not return
early with a negative result: the host tokenizer yields no tokens for a
falsy title (raising nothing), and `identify` takes the title-search branch
and issues a search request whose query is the bare search URL; whether
records are pushed then depends on the search response. -/
theorem c4_no_title_still_searches (env : Env) (ids : List (String × String))
    (h : truthy (pyGet ids _ID_TYPE) = false) :
    identify env none ids = _search_title env none ∧
    (identify env none ids).requests.head? =
      some (Request.search (searchQuery none)) ∧
    searchQuery none = _API_SEARCH_URL := by
  have heq : identify env none ids = _search_title env none := by
    simp [identify, h]
  refine ⟨heq, ?_, by decide⟩
  rw [heq]
  cases hr : env.searchResponse (searchQuery none) with
  | error e => simp [_search_title, hr]
  | ok soup => simp [_search_title, hr]

/-- C4 witness: the amended claim applied to `envC4` with an empty
identifier map. -/
theorem c4_no_title_still_searches_witness :
    identify envC4 none [] = _search_title envC4 none ∧
    (identify envC4 none []).requests.head? =
      some (Request.search (searchQuery none)) ∧
    searchQuery none = _API_SEARCH_URL :=
  c4_no_title_still_searches envC4 [] (by decide)

/-- C5 counterexample: on a publication-year value that is not parseable as
an integer, publish-date extraction raises a `ValueError` instead of
degrading to the absent default. -/
theorem c5_counterexample :
    _get_pub_date soupBadYear = .error (.valueError "abc") ∧
    _get_pub_date soupBadYear ≠ .ok none := by
  have h : _get_pub_date soupBadYear = .error (.valueError "abc") := rfl
  exact ⟨h, by rw [h]; simp⟩

/-- C5 (amended): publish-date extraction returns absent when the
publication-year element is missing or its parsed value is ≤ 0, and returns
January 1 of year `Y` when the value parses to a positive year `Y` (within
the representable range); but when the year value is not parseable as an
integer — or the element lacks the attribute — the extraction raises the
exception rather than degrading to the absent default. -/
theorem c5_pub_date (soup : Soup) (tag : Element) (v : String) (y : Int) (e : PyErr) :
    (find soup "yearpublished" [] = none → _get_pub_date soup = .ok none) ∧
    (find soup "yearpublished" [] = some tag → tag.getItem "value" = .ok v →
      pyInt v = .ok y → y ≤ 0 → _get_pub_date soup = .ok none) ∧
    (find soup "yearpublished" [] = some tag → tag.getItem "value" = .ok v →
      pyInt v = .ok y → 1 ≤ y → y ≤ 9999 →
      _get_pub_date soup = .ok (some ⟨y, 1, 1⟩)) ∧
    (find soup "yearpublished" [] = some tag → tag.getItem "value" = .ok v →
      pyInt v = .error e → _get_pub_date soup = .error e) ∧
    (find soup "yearpublished" [] = some tag → tag.getItem "value" = .error e →
      _get_pub_date soup = .error e) := by
  refine ⟨?_, ?_, ?_, ?_, ?_⟩
  · intro h1
    simp [_get_pub_date, h1]
  · intro h1 h2 h3 hy
    simp only [_get_pub_date, h1, h2, h3]
    rw [if_pos hy]
  · intro h1 h2 h3 hy1 hy2
    simp only [_get_pub_date, h1, h2, h3]
    rw [if_neg (by omega)]
    simp only [datetime]
    rw [if_pos ⟨hy1, hy2⟩]
  · intro h1 h2 h3
    simp [_get_pub_date, h1, h2, h3]
  · intro h1 h2
    simp [_get_pub_date, h1, h2]

/-- C5 witness: the amended claim applied to concrete responses — a missing
element, a year `0`, a good year `1999`, and the unparseable year
`"abc"`. -/
theorem c5_pub_date_witness :
    _get_pub_date [] = .ok none ∧
    _get_pub_date [⟨"yearpublished", [("value", "0")], []⟩] = .ok none ∧
    _get_pub_date [⟨"yearpublished", [("value", "1999")], []⟩] =
      .ok (some ⟨1999, 1, 1⟩) ∧
    _get_pub_date soupBadYear = .error (.valueError "abc") := by
  refine ⟨?_, ?_, ?_, ?_⟩
  · exact (c5_pub_date [] ⟨"", [], []⟩ "" 0 (.valueError "")).1 rfl
  · exact (c5_pub_date [⟨"yearpublished", [("value", "0")], []⟩]
      ⟨"yearpublished", [("value", "0")], []⟩ "0" 0 (.valueError "")).2.1
      rfl rfl rfl (by norm_num)
  · exact (c5_pub_date [⟨"yearpublished", [("value", "1999")], []⟩]
      ⟨"yearpublished", [("value", "1999")], []⟩ "1999" 1999 (.valueError "")).2.2.1
      rfl rfl rfl (by norm_num) (by norm_num)
  · exact (c5_pub_date soupBadYear ⟨"yearpublished", [("value", "abc")], []⟩
      "abc" 0 (.valueError "abc")).2.2.2.1 rfl rfl rfl

/-- Helper: dropping while a predicate holds skips a fully-satisfying
prefix. -/
lemma dropWhile_append_of_all {p : Char → Bool} (l₁ l₂ : List Char)
    (h : ∀ x ∈ l₁, p x = true) :
    (l₁ ++ l₂).dropWhile p = l₂.dropWhile p := by
  induction l₁ with
  | nil => simp
  | cons a t ih =>
    simp only [List.cons_append]
    rw [List.dropWhile_cons_of_pos (h a (by simp))]
    exact ih (fun x hx => h x (by simp [hx]))

/-- Helper: taking while a predicate holds keeps a fully-satisfying
prefix. -/
lemma takeWhile_append_of_all {p : Char → Bool} (l₁ l₂ : List Char)
    (h : ∀ x ∈ l₁, p x = true) :
    (l₁ ++ l₂).takeWhile p = l₁ ++ l₂.takeWhile p := by
  induction l₁ with
  | nil => simp
  | cons a t ih =>
    simp only [List.cons_append]
    rw [List.takeWhile_cons_of_pos (h a (by simp))]
    rw [ih (fun x hx => h x (by simp [hx]))]

/-- Helper: the series-code regex capture on a string decomposed as
`a ++ d ++ n`, with `d` a non-empty digit run, `n` all non-digits and `a`
not ending in a digit, is exactly the value of `d`. -/
lemma lastDigitRun_decomp (a d n : List Char)
    (hd : d ≠ []) (hdall : ∀ ch ∈ d, ch.isDigit = true)
    (hnall : ∀ ch ∈ n, ch.isDigit = false)
    (ha : ∀ ch, a.getLast? = some ch → ch.isDigit = false) :
    lastDigitRun (String.mk (a ++ d ++ n)) = some (digitsToNat d) := by
  have htl : (String.mk (a ++ d ++ n)).toList = a ++ d ++ n := rfl
  unfold lastDigitRun
  rw [htl]
  have hrev : (a ++ d ++ n).reverse = n.reverse ++ (d.reverse ++ a.reverse) := by
    simp [List.reverse_append]
  rw [hrev]
  have hstep1 : (n.reverse ++ (d.reverse ++ a.reverse)).dropWhile
      (fun c => !c.isDigit) = (d.reverse ++ a.reverse).dropWhile (fun c => !c.isDigit) :=
    dropWhile_append_of_all _ _ (by
      intro x hx
      rw [List.mem_reverse] at hx
      simp [hnall x hx])
  rw [hstep1]
  rcases hdr : d.reverse with _ | ⟨c, cs⟩
  · exact absurd (by simpa using hdr) hd
  · have hcd : c.isDigit = true := by
      have : c ∈ d := by
        rw [← List.mem_reverse, hdr]
        simp
      exact hdall c this
    have hstep2 : ((c :: cs) ++ a.reverse).dropWhile (fun c => !c.isDigit) =
        (c :: cs) ++ a.reverse := by
      rw [List.cons_append, List.dropWhile_cons_of_neg (by simp [hcd])]
    rw [hstep2]
    have hstep3 : ((c :: cs) ++ a.reverse).takeWhile Char.isDigit =
        (c :: cs) ++ a.reverse.takeWhile Char.isDigit := by
      apply takeWhile_append_of_all
      intro x hx
      have : x ∈ d := by
        rw [← List.mem_reverse, hdr]
        exact hx
      exact hdall x this
    have hstep4 : a.reverse.takeWhile Char.isDigit = [] := by
      rcases har : a.reverse with _ | ⟨b, bs⟩
      · rfl
      · have hb : a.getLast? = some b := by
          rw [List.getLast?_eq_head?_reverse, har]
          rfl
        exact List.takeWhile_cons_of_neg (by simp [ha b hb])
    simp only [hstep3, hstep4, List.append_nil, List.isEmpty_cons,
      Bool.false_eq_true, if_false]
    rw [show ((c :: cs) : List Char) = d.reverse from hdr.symm, List.reverse_reverse]

/-- Helper: a string with no digits at all has no regex capture. -/
lemma lastDigitRun_none (w : List Char) (h : ∀ ch ∈ w, ch.isDigit = false) :
    lastDigitRun (String.mk w) = none := by
  unfold lastDigitRun
  have htl : (String.mk w).toList = w := rfl
  rw [htl]
  have hdrop : w.reverse.dropWhile (fun c => !c.isDigit) = [] := by
    rw [List.dropWhile_eq_nil_iff]
    intro x hx
    rw [List.mem_reverse] at hx
    simp [h x hx]
  rw [hdrop]
  rfl

/-- C6: series extraction returns as series name the `value` of the first
series-link element (empty string when none exists) and, independently, as
series index the integer given by the trailing digit run of the
series-code `value` — `0` when the code has no digits or when no
series-code element exists. The index characterization: for any code of the
form `a ++ d ++ n` with `d` a non-empty digit run, `n` all non-digits and
`a` not ending in a digit, the index is the value of `d`; for an all
non-digit code it is `0`. -/
theorem c6_series_extraction :
    (∀ soup, find soup "link" [("type", "rpgseries")] = none →
      find soup "seriescode" [] = none → _get_series soup = .ok ("", 0)) ∧
    (∀ soup t v, find soup "link" [("type", "rpgseries")] = some t →
      t.attr "value" = some v → find soup "seriescode" [] = none →
      _get_series soup = .ok (v, 0)) ∧
    (∀ soup c w, find soup "link" [("type", "rpgseries")] = none →
      find soup "seriescode" [] = some c → c.attr "value" = some w →
      _get_series soup = .ok ("", seriesIndex w)) ∧
    (∀ soup t v c w, find soup "link" [("type", "rpgseries")] = some t →
      t.attr "value" = some v → find soup "seriescode" [] = some c →
      c.attr "value" = some w → _get_series soup = .ok (v, seriesIndex w)) ∧
    (∀ a d n : List Char, d ≠ [] → (∀ ch ∈ d, ch.isDigit = true) →
      (∀ ch ∈ n, ch.isDigit = false) →
      (∀ ch, a.getLast? = some ch → ch.isDigit = false) →
      seriesIndex (String.mk (a ++ d ++ n)) = (digitsToNat d : Int)) ∧
    (∀ w : List Char, (∀ ch ∈ w, ch.isDigit = false) →
      seriesIndex (String.mk w) = 0) := by
  refine ⟨?_, ?_, ?_, ?_, ?_, ?_⟩
  · intro soup h1 h2
    simp [_get_series, h1, h2]
  · intro soup t v h1 h2 h3
    simp [_get_series, Element.getItem, h1, h2, h3]
  · intro soup c w h1 h2 h3
    simp [_get_series, Element.getItem, h1, h2, h3]
  · intro soup t v c w h1 h2 h3 h4
    simp [_get_series, Element.getItem, h1, h2, h3, h4]
  · intro a d n hd hdall hnall ha
    unfold seriesIndex
    rw [lastDigitRun_decomp a d n hd hdall hnall ha]
  · intro w h
    unfold seriesIndex
    rw [lastDigitRun_none w h]

/-- C6 witness: on the concrete response `soupSeries` the series name is
`"My Series"` and the index parsed from code `"ABC-042b"` is `42`; the
digit-free code `"ABC"` gives index `0`. -/
theorem c6_series_extraction_witness :
    _get_series soupSeries = .ok ("My Series", 42) ∧
    seriesIndex "ABC-042b" = 42 ∧
    seriesIndex "ABC" = 0 := by
  have hidx : seriesIndex (String.mk ("ABC-".toList ++ "042".toList ++ "b".toList)) =
      (digitsToNat "042".toList : Int) :=
    c6_series_extraction.2.2.2.2.1 "ABC-".toList "042".toList "b".toList
      (by decide) (by decide) (by decide) (by decide)
  have hidx' : seriesIndex "ABC-042b" = 42 := by
    have heq : String.mk ("ABC-".toList ++ "042".toList ++ "b".toList) = "ABC-042b" := by
      decide
    rw [heq] at hidx
    simpa using hidx
  have habc : seriesIndex "ABC" = 0 := by
    have h := c6_series_extraction.2.2.2.2.2 "ABC".toList (by decide)
    have heq : String.mk "ABC".toList = "ABC" := by decide
    rw [heq] at h
    exact h
  refine ⟨?_, hidx', habc⟩
  have h4 := c6_series_extraction.2.2.2.1 soupSeries
    ⟨"link", [("type", "rpgseries"), ("value", "My Series")], []⟩ "My Series"
    ⟨"seriescode", [("value", "ABC-042b")], []⟩ "ABC-042b"
    (by decide) (by decide) (by decide) (by decide)
  rw [h4, hidx']

end BGGeek
